import Mathlib

/-!
Verification development for the shapetypes planar-geometry kernel.

The intersection dispatch engine (src/lib/intersection/meta.ts), the polygon
composition layer (src/lib/polygon.ts) and the runtime array type guards
(utilities) are embedded shallowly over exact rational coordinates.  The
pairwise primitive solvers, the polyline primitives (closestParameter, pointAt,
orientation) and the settings constant live outside the provided sources and
are modelled from the specification; each such definition carries a doc comment
starting with the words Modelled from the spec.
-/

namespace Shapetypes

/-- Modelled from the spec: the global absolute tolerance constant, default 0.001. -/
def absoluteTolerance : ℚ := 1/1000

/-- A 2D point with exact rational coordinates. -/
structure Pt where
  x : ℚ
  y : ℚ
deriving DecidableEq

def Pt.sub (a b : Pt) : Pt := ⟨a.x - b.x, a.y - b.y⟩

def Pt.add (a b : Pt) : Pt := ⟨a.x + b.x, a.y + b.y⟩

def Pt.smul (t : ℚ) (a : Pt) : Pt := ⟨t * a.x, t * a.y⟩

/-- 2D cross product (z-component). -/
def cross2 (a b : Pt) : ℚ := a.x * b.y - a.y * b.x

def dot2 (a b : Pt) : ℚ := a.x * b.x + a.y * b.y

/-- Axis-aligned bounding box as two sorted intervals. -/
structure BoundingBox where
  xmin : ℚ
  xmax : ℚ
  ymin : ℚ
  ymax : ℚ
deriving DecidableEq

/-- Modelled from the spec (section 4.1): membership of the box inflated by tol;
strict excludes points exactly on the inflated boundary. -/
def BoundingBox.containsPt (b : BoundingBox) (p : Pt) (strict : Bool) (tol : ℚ) : Bool :=
  if strict then
    decide (b.xmin - tol < p.x) && decide (p.x < b.xmax + tol) &&
      decide (b.ymin - tol < p.y) && decide (p.y < b.ymax + tol)
  else
    decide (b.xmin - tol ≤ p.x) && decide (p.x ≤ b.xmax + tol) &&
      decide (b.ymin - tol ≤ p.y) && decide (p.y ≤ b.ymax + tol)

/-- Modelled from the spec (section 4.1): interval overlap on both axes, with
touching boundaries counting as overlap. -/
def BoundingBox.overlaps (a b : BoundingBox) : Bool :=
  decide (a.xmin ≤ b.xmax) && decide (b.xmin ≤ a.xmax) &&
    decide (a.ymin ≤ b.ymax) && decide (b.ymin ≤ a.ymax)

/-- A finite line segment from fromPt to toPt, parameterized over [0, 1]. -/
structure Line where
  fromPt : Pt
  toPt : Pt
deriving DecidableEq

def Line.direction (l : Line) : Pt := l.toPt.sub l.fromPt

def clamp01 (t : ℚ) : ℚ := if t < 0 then 0 else if 1 < t then 1 else t

/-- Modelled from the spec: Line.pointAt; with limitToFinite the parameter is
first clamped to [0, 1]. -/
def Line.pointAt (l : Line) (t : ℚ) (limitToFinite : Bool) : Pt :=
  let u := if limitToFinite then clamp01 t else t
  l.fromPt.add (Pt.smul u l.direction)

/-- Modelled from the spec: Line.closestParameter, the orthogonal projection of
the point onto the carrier line, clamped to [0, 1] when limitToFinite. -/
def Line.closestParameter (l : Line) (p : Pt) (limitToFinite : Bool) : ℚ :=
  let len2 := dot2 l.direction l.direction
  if len2 = 0 then 0
  else
    let u := dot2 (p.sub l.fromPt) l.direction / len2
    if limitToFinite then clamp01 u else u

def Line.boundingBox (l : Line) : BoundingBox :=
  ⟨min l.fromPt.x l.toPt.x, max l.fromPt.x l.toPt.x,
    min l.fromPt.y l.toPt.y, max l.fromPt.y l.toPt.y⟩

/-- A ray from fromPt along direction, parameter domain t ≥ 0 (spec section 3). -/
structure Ray where
  fromPt : Pt
  direction : Pt
deriving DecidableEq

def Ray.pointAt (r : Ray) (t : ℚ) : Pt := r.fromPt.add (Pt.smul t r.direction)

/-- Modelled from the spec: Ray.closestParameter, the projection clamped to the
ray domain t ≥ 0. -/
def Ray.closestParameter (r : Ray) (p : Pt) : ℚ :=
  let len2 := dot2 r.direction r.direction
  if len2 = 0 then 0
  else max 0 (dot2 (p.sub r.fromPt) r.direction / len2)

/-- Modelled from the spec (section 6): the pairwise line-line solver.  Returns
the parameters along each segment when they cross within both segments, and
nothing otherwise; parallel segments report no intersection. -/
def lineLine (a b : Line) : Option (ℚ × ℚ) :=
  let d := cross2 a.direction b.direction
  if d = 0 then none
  else
    let w := b.fromPt.sub a.fromPt
    let u := cross2 w b.direction / d
    let v := cross2 w a.direction / d
    if 0 ≤ u ∧ u ≤ 1 ∧ 0 ≤ v ∧ v ≤ 1 then some (u, v) else none

/-- Modelled from the spec (section 6): the ray-line solver returning
(rayU, lineU).  The line parameter must lie in [0, 1]; when onlyForward is set
the ray parameter must additionally be nonnegative. -/
def rayLine (r : Ray) (l : Line) (onlyForward : Bool) : Option (ℚ × ℚ) :=
  let d := cross2 r.direction l.direction
  if d = 0 then none
  else
    let w := l.fromPt.sub r.fromPt
    let u := cross2 w l.direction / d
    let v := cross2 w r.direction / d
    if (0 ≤ v ∧ v ≤ 1) ∧ (onlyForward = true → 0 ≤ u) then some (u, v) else none

/-- Modelled from the spec (section 6): the ray-ray solver returning
(rayAU, rayBU), each within its ray domain t ≥ 0. -/
def rayRay (a b : Ray) : Option (ℚ × ℚ) :=
  let d := cross2 a.direction b.direction
  if d = 0 then none
  else
    let w := b.fromPt.sub a.fromPt
    let u := cross2 w b.direction / d
    let v := cross2 w a.direction / d
    if 0 ≤ u ∧ 0 ≤ v then some (u, v) else none

/-- Parameter interval in which one coordinate of the segment lies inside one
slab of the box; none when a degenerate axis misses the slab entirely. -/
def axisSlab (x0 dx lo hi : ℚ) : Option (ℚ × ℚ) :=
  if dx = 0 then (if lo ≤ x0 ∧ x0 ≤ hi then some (0, 1) else none)
  else some (min ((lo - x0)/dx) ((hi - x0)/dx), max ((lo - x0)/dx) ((hi - x0)/dx))

/-- Modelled from the spec (rule 6 fast reject): whether the segment enters the
box, by clipping the parameter range [0, 1] against both axis slabs. -/
def lineBoxIntersects (l : Line) (b : BoundingBox) : Bool :=
  match axisSlab l.fromPt.x l.direction.x b.xmin b.xmax,
      axisSlab l.fromPt.y l.direction.y b.ymin b.ymax with
  | some (a1, a2), some (b1, b2) => decide (max 0 (max a1 b1) ≤ min 1 (min a2 b2))
  | _, _ => false

/-- Slab interval for a ray axis; the upper bound is none for a degenerate axis
that lies inside the slab (unbounded). -/
def axisSlabRay (x0 dx lo hi : ℚ) : Option (ℚ × Option ℚ) :=
  if dx = 0 then (if lo ≤ x0 ∧ x0 ≤ hi then some (0, none) else none)
  else some (min ((lo - x0)/dx) ((hi - x0)/dx), some (max ((lo - x0)/dx) ((hi - x0)/dx)))

/-- Modelled from the spec (rule 6 fast reject): whether the ray (t ≥ 0) enters
the box. -/
def rayBoxIntersects (r : Ray) (b : BoundingBox) : Bool :=
  match axisSlabRay r.fromPt.x r.direction.x b.xmin b.xmax,
      axisSlabRay r.fromPt.y r.direction.y b.ymin b.ymax with
  | some (a1, ha), some (b1, hb) =>
    let lo := max 0 (max a1 b1)
    match ha, hb with
    | none, none => true
    | some h, none => decide (lo ≤ h)
    | none, some h => decide (lo ≤ h)
    | some h1, some h2 => decide (lo ≤ min h1 h2)
  | _, _ => false

/-- Modelled from the spec (section 3): a polyline is an ordered point sequence
plus a closed/open flag. -/
structure Polyline where
  points : List Pt
  closed : Bool
deriving DecidableEq

def Polyline.isClosed (pl : Polyline) : Bool := pl.closed

def consecSegments : List Pt → List Line
  | a :: b :: rest => ⟨a, b⟩ :: consecSegments (b :: rest)
  | _ => []

/-- Derived segments: one Line per consecutive pair of points, wrapping from the
last point back to the first when the polyline is closed (spec section 3). -/
def Polyline.segments (pl : Polyline) : List Line :=
  match pl.points with
  | [] => []
  | p :: ps =>
    consecSegments (p :: ps) ++
      (if pl.closed then
        match ps with
        | [] => []
        | _ :: _ => [⟨ps.getLastD p, p⟩]
      else [])

def Polyline.boundingBox (pl : Polyline) : BoundingBox :=
  match pl.points with
  | [] => ⟨0, 0, 0, 0⟩
  | p :: ps =>
    ps.foldl (fun b q => ⟨min b.xmin q.x, max b.xmax q.x, min b.ymin q.y, max b.ymax q.y⟩)
      ⟨p.x, p.x, p.y, p.y⟩

/-- Sum of consecutive cross products along an open vertex path. -/
def pathSum : List Pt → ℚ
  | a :: b :: rest => cross2 a b + pathSum (b :: rest)
  | _ => 0

/-- The closing term of the cyclic shoelace sum: cross of the last vertex with
the first. -/
def wrapTerm (l : List Pt) : ℚ :=
  match l.head?, l.getLast? with
  | some a, some z => cross2 z a
  | _, _ => 0

def cycSum (l : List Pt) : ℚ := pathSum l + wrapTerm l

/-- Modelled from the spec (section 3): shoelace signed area; half the cyclic
cross sum for a closed polyline. -/
def Polyline.signedArea (pl : Polyline) : ℚ :=
  (if pl.closed then cycSum pl.points else pathSum pl.points) / 2

inductive CurveOrientation where
  | counterclockwise
  | clockwise
  | undefined
deriving DecidableEq

/-- Modelled from the spec (section 3, y-axis up): positive signed area is
counter-clockwise. -/
def Polyline.orientation (pl : Polyline) : CurveOrientation :=
  if 0 < pl.signedArea then .counterclockwise
  else if pl.signedArea < 0 then .clockwise
  else .undefined

def Polyline.reverse (pl : Polyline) : Polyline := ⟨pl.points.reverse, pl.closed⟩

/-- Modelled from the spec (section 3): force a winding direction; reverse the
vertex order exactly when the current orientation is the strict opposite of the
goal. -/
def Polyline.withOrientation (pl : Polyline) (o : CurveOrientation) : Polyline :=
  if pl.orientation = o ∨ pl.orientation = .undefined then pl else pl.reverse

/-- A polygon value: one boundary loop and a list of hole loops.  Values are
built through Polygon.create, which canonicalizes the windings. -/
structure Polygon where
  boundary : Polyline
  holes : List Polyline
deriving DecidableEq

/-- The error conditions signalled by the embedded code paths. -/
inductive JsError where
  | invalidGeometry
  | rangeError
  | convertError
  | typeError
deriving DecidableEq

/-- The hole-validation loop of the Polygon constructor: reject the first
non-closed hole, otherwise force every hole clockwise. -/
def orientHoles : List Polyline → Except JsError (List Polyline)
  | [] => .ok []
  | h :: hs =>
    if h.isClosed = false then .error .invalidGeometry
    else
      match orientHoles hs with
      | .error e => .error e
      | .ok rest => .ok (h.withOrientation .clockwise :: rest)

/-- Embeds the Polygon constructor: a non-closed boundary or hole is an
invalid-geometry error; the boundary is forced counter-clockwise and the holes
clockwise, with no other validation. -/
def Polygon.create (boundary : Polyline) (holes : Option (List Polyline)) :
    Except JsError Polygon :=
  if boundary.isClosed = false then .error .invalidGeometry
  else
    match holes with
    | none => .ok ⟨boundary.withOrientation .counterclockwise, []⟩
    | some hs =>
      match orientHoles hs with
      | .error e => .error e
      | .ok newHoles => .ok ⟨boundary.withOrientation .counterclockwise, newHoles⟩

def Polygon.boundingBox (pg : Polygon) : BoundingBox := pg.boundary.boundingBox

/-- A ring is an ordered loop of points (spec glossary). -/
abbrev GeoRing := List Pt

/-- The ring-set representation consumed by the clipping primitive: first ring
is the outer boundary, the rest are holes. -/
abbrev PcPolygon := List GeoRing

abbrev MultiPoly := List PcPolygon

/-- Modelled from the spec (glossary): a ring is a closed loop, so rehydrating
ring coordinates yields a closed polyline over those points. -/
def Polyline.fromCoords (r : GeoRing) : Polyline := ⟨r, true⟩

/-- Modelled from the spec (section 4.3): a polyline converts to the ring of its
points. -/
def Polyline.asGeoJSON (pl : Polyline) : GeoRing := pl.points

/-- Embeds Polygon.fromCoords: an empty ring list is a RangeError; otherwise the
first ring becomes the boundary and the remaining rings the holes. -/
def Polygon.fromCoords (coordinates : PcPolygon) : Except JsError Polygon :=
  match coordinates with
  | [] => .error .rangeError
  | [b] => Polygon.create (Polyline.fromCoords b) none
  | b :: rest => Polygon.create (Polyline.fromCoords b) (some (rest.map Polyline.fromCoords))

/-- Embeds Polygon.asGeoJSON: boundary ring first, then the hole rings. -/
def Polygon.asGeoJSON (pg : Polygon) : PcPolygon :=
  pg.boundary.asGeoJSON :: pg.holes.map Polyline.asGeoJSON

/-- Embeds the fromGeoJSON helper: pieces with zero rings are skipped, every
other piece is rehydrated through Polygon.fromCoords. -/
def fromGeoJSON : MultiPoly → Except JsError (List Polygon)
  | [] => .ok []
  | piece :: rest =>
    if piece.isEmpty then fromGeoJSON rest
    else
      match Polygon.fromCoords piece with
      | .error e => .error e
      | .ok pg =>
        match fromGeoJSON rest with
        | .error e => .error e
        | .ok others => .ok (pg :: others)

/-- A runtime element of a boolean-operand array: a polyline or a polygon. -/
inductive PolyGeom where
  | pl (p : Polyline)
  | pg (p : Polygon)
deriving DecidableEq

/-- A runtime operand of union/intersection/difference. -/
inductive BoolOperand where
  | pl (p : Polyline)
  | pg (p : Polygon)
  | arr (xs : List PolyGeom)
deriving DecidableEq

/-- Embeds the isPolylineArray type guard: an array whose first element is a
Polyline; empty arrays are rejected. -/
def isPolylineArray : BoolOperand → Bool
  | .arr (PolyGeom.pl _ :: _) => true
  | _ => false

/-- Embeds the isPolygonArray type guard: an array whose first element is a
Polygon; empty arrays are rejected. -/
def isPolygonArray : BoolOperand → Bool
  | .arr (PolyGeom.pg _ :: _) => true
  | _ => false

/-- The operand shape handed to the clipping primitive: a single ring-set or a
multi-polygon ring-set list. -/
abbrev ClipInput := PcPolygon ⊕ MultiPoly

def PolyGeom.asMultiEntry : PolyGeom → PcPolygon
  | .pl p => [p.asGeoJSON]
  | .pg p => p.asGeoJSON

/-- Embeds toMulti: single shapes convert directly; arrays are classified by the
first-element type guards, so an empty array matches neither guard and falls
through to the conversion error.  Non-empty arrays are converted element-wise
(for the homogeneous arrays admitted by the source signature this coincides
with the per-guard loops of the source). -/
def toMulti : BoolOperand → Except JsError ClipInput
  | .pl p => .ok (Sum.inl [p.asGeoJSON])
  | .pg p => .ok (Sum.inl p.asGeoJSON)
  | .arr [] => .error .convertError
  | .arr (x :: xs) => .ok (Sum.inr ((x :: xs).map PolyGeom.asMultiEntry))

/-- Embeds Polygon.union, parameterized by the external clipping primitive. -/
def Polygon.unionE (clip : PcPolygon → ClipInput → MultiPoly) (pg : Polygon)
    (joiner : BoolOperand) : Except JsError (List Polygon) :=
  match toMulti joiner with
  | .error e => .error e
  | .ok m => fromGeoJSON (clip pg.asGeoJSON m)

/-- Embeds Polygon.intersection, parameterized by the external clipping
primitive. -/
def Polygon.intersectionE (clip : PcPolygon → ClipInput → MultiPoly) (pg : Polygon)
    (intersector : BoolOperand) : Except JsError (List Polygon) :=
  match toMulti intersector with
  | .error e => .error e
  | .ok m => fromGeoJSON (clip pg.asGeoJSON m)

/-- Embeds Polygon.difference, parameterized by the external clipping
primitive. -/
def Polygon.differenceE (clip : PcPolygon → ClipInput → MultiPoly) (pg : Polygon)
    (subtractor : BoolOperand) : Except JsError (List Polygon) :=
  match toMulti subtractor with
  | .error e => .error e
  | .ok m => fromGeoJSON (clip pg.asGeoJSON m)

inductive PointContainment where
  | unset
  | inside
  | outside
  | coincident
deriving DecidableEq

/-- The hole loop of Polygon.contains: the first hole reporting inside makes the
point outside, the first hole reporting coincident makes it coincident, any
other report continues the scan. -/
def holeScan (plc : Polyline → Pt → ℚ → PointContainment) (pt : Pt) (tol : ℚ) :
    List Polyline → PointContainment
  | [] => .inside
  | h :: hs =>
    match plc h pt tol with
    | .inside => .outside
    | .coincident => .coincident
    | _ => holeScan plc pt tol hs

/-- Embeds Polygon.contains, parameterized by the closed-polyline containment
primitive plc (an external collaborator per spec section 4.4). -/
def Polygon.containsPt (plc : Polyline → Pt → ℚ → PointContainment) (pg : Polygon)
    (pt : Pt) (tol : ℚ) : PointContainment :=
  let bc := plc pg.boundary pt tol
  if bc ≠ PointContainment.inside then bc
  else holeScan plc pt tol pg.holes

structure Circle where
  center : Pt
  radius : ℚ
deriving DecidableEq

def Circle.boundingBox (c : Circle) : BoundingBox :=
  ⟨c.center.x - c.radius, c.center.x + c.radius,
    c.center.y - c.radius, c.center.y + c.radius⟩

/-- Modelled from the spec (sections 4.1 and 4.2 rule 4): a rectangle takes part
in the engine only through its boundary polyline. -/
structure Rect where
  poly : Polyline
deriving DecidableEq

def Rect.toPolyline (r : Rect) : Polyline := r.poly

/-- Modelled from the spec (section 4.1): the box as a closed polyline visiting
(min,min), (max,min), (max,max), (min,max). -/
def BoundingBox.toPolyline (b : BoundingBox) : Polyline :=
  ⟨[⟨b.xmin, b.ymin⟩, ⟨b.xmax, b.ymin⟩, ⟨b.xmax, b.ymax⟩, ⟨b.xmin, b.ymax⟩], true⟩

mutual
/-- The closed set of runtime target kinds of the dispatch engine, plus a
catch-all constructor for values outside the recognized kinds. -/
inductive Geom where
  | point (p : Pt)
  | line (l : Line)
  | ray (r : Ray)
  | bbox (b : BoundingBox)
  | circle (c : Circle)
  | rect (r : Rect)
  | polyline (p : Polyline)
  | polygon (p : Polygon)
  | array (gs : GeomList)
  | unknown
inductive GeomList where
  | nil
  | cons (g : Geom) (gs : GeomList)
end

/-- The external line/ray-circle solvers (spec section 6), consumed as black
boxes returning the parameter lists along the query shape. -/
structure CircleSolvers where
  lineCircle : Line → Circle → List ℚ
  rayCircle : Ray → Circle → List ℚ

/-- Ascending sort, the embedding of sort((a, b) => a - b). -/
def sortq (xs : List ℚ) : List ℚ := List.insertionSort (· ≤ ·) xs

/-- The embedding of spreading a JS Set built from a list: duplicates removed,
first occurrences kept in insertion order. -/
def setDedup (xs : List ℚ) : List ℚ :=
  xs.foldl (fun acc x => if x ∈ acc then acc else acc ++ [x]) []

/-- The linePolyline helper: solver parameters of the line against every target
segment, in segment order, no sorting and no deduplication. -/
def linePolyline (theLine : Line) (pl : Polyline) : List ℚ :=
  pl.segments.filterMap (fun edge => (lineLine theLine edge).map Prod.fst)

/-- The rayPolyline helper: solver parameters of the ray against every target
segment, in segment order. -/
def rayPolyline (theRay : Ray) (pl : Polyline) : List ℚ :=
  pl.segments.filterMap (fun edge => (rayLine theRay edge false).map Prod.fst)

/-- The Polyline-target branch of the line dispatch: bounding-box fast reject,
then linePolyline, then ascending sort.  BoundingBox and Rectangle targets
route here through their toPolyline conversion. -/
def linePolyBranch (theLine : Line) (pl : Polyline) : List ℚ :=
  sortq (if lineBoxIntersects theLine pl.boundingBox then linePolyline theLine pl else [])

/-- The Polygon-target branch of the line dispatch: the boundary bounding-box
test gates everything; inside it the boundary hits and the per-hole gated hits
are concatenated, then sorted ascending. -/
def linePolygonBranch (theLine : Line) (pg : Polygon) : List ℚ :=
  sortq
    (if lineBoxIntersects theLine pg.boundary.boundingBox then
      linePolyline theLine pg.boundary ++
        pg.holes.flatMap (fun h =>
          if lineBoxIntersects theLine h.boundingBox then linePolyline theLine h else [])
    else [])

/-- The Polyline-target branch of the ray dispatch. -/
def rayPolyBranch (theRay : Ray) (pl : Polyline) : List ℚ :=
  sortq (if rayBoxIntersects theRay pl.boundingBox then rayPolyline theRay pl else [])

/-- The Polygon-target branch of the ray dispatch. -/
def rayPolygonBranch (theRay : Ray) (pg : Polygon) : List ℚ :=
  sortq
    (if rayBoxIntersects theRay pg.boundary.boundingBox then
      rayPolyline theRay pg.boundary ++
        pg.holes.flatMap (fun h =>
          if rayBoxIntersects theRay h.boundingBox then rayPolyline theRay h else [])
    else [])

mutual
/-- Embeds the line dispatch of meta.ts over all target kinds. -/
def lineDisp (cs : CircleSolvers) (theLine : Line) : Geom → List ℚ
  | .array gs => sortq (lineDispList cs theLine gs)
  | .point p =>
    let t := theLine.closestParameter p true
    if theLine.pointAt t true = p then [t] else []
  | .line l2 =>
    match lineLine theLine l2 with
    | some res => [res.1]
    | none => []
  | .ray r =>
    match rayLine r theLine false with
    | some res => [res.2]
    | none => []
  | .bbox b => linePolyBranch theLine b.toPolyline
  | .circle c => cs.lineCircle theLine c
  | .rect rc => linePolyBranch theLine rc.toPolyline
  | .polyline pl => linePolyBranch theLine pl
  | .polygon pg => linePolygonBranch theLine pg
  | .unknown => []
/-- The list-target loop of the line dispatch: concatenation in element order. -/
def lineDispList (cs : CircleSolvers) (theLine : Line) : GeomList → List ℚ
  | .nil => []
  | .cons g gs => lineDisp cs theLine g ++ lineDispList cs theLine gs
end

mutual
/-- Embeds the ray dispatch of meta.ts over all target kinds. -/
def rayDisp (cs : CircleSolvers) (theRay : Ray) : Geom → List ℚ
  | .array gs => sortq (rayDispList cs theRay gs)
  | .point p =>
    let t := theRay.closestParameter p
    if theRay.pointAt t = p then [t] else []
  | .line l2 =>
    match rayLine theRay l2 false with
    | some res => [res.1]
    | none => []
  | .ray r2 =>
    match rayRay theRay r2 with
    | some res => [res.1]
    | none => []
  | .bbox b => rayPolyBranch theRay b.toPolyline
  | .circle c => cs.rayCircle theRay c
  | .rect rc => rayPolyBranch theRay rc.toPolyline
  | .polyline pl => rayPolyBranch theRay pl
  | .polygon pg => rayPolygonBranch theRay pg
  | .unknown => []
/-- The list-target loop of the ray dispatch. -/
def rayDispList (cs : CircleSolvers) (theRay : Ray) : GeomList → List ℚ
  | .nil => []
  | .cons g gs => rayDisp cs theRay g ++ rayDispList cs theRay gs
end

/-- The runtime boundingBox property consulted by the polyline dispatch fast
reject; absent (none) exactly for values outside the recognized geometry
kinds. -/
def geomBoundingBox : Geom → Option BoundingBox
  | .point p => some ⟨p.x, p.x, p.y, p.y⟩
  | .line l => some l.boundingBox
  | .ray _ => none
  | .bbox b => some b
  | .circle c => some c.boundingBox
  | .rect rc => some rc.toPolyline.boundingBox
  | .polyline pl => some pl.boundingBox
  | .polygon pg => some pg.boundingBox
  | .array _ => none
  | .unknown => none

/-- The per-segment loop of the polyline dispatch: intersect every query
segment with the target and offset the parameters by the segment index. -/
def segmentOffsets (cs : CircleSolvers) (thePolyline : Polyline) (g : Geom) : List ℚ :=
  thePolyline.segments.enum.flatMap
    (fun pr => (lineDisp cs pr.2 g).map (fun u => (pr.1 : ℚ) + u))

/-- The main body of the polyline dispatch after the fast-reject: per-segment
hits, deduplicated through a Set, sorted ascending. -/
def polylineMain (cs : CircleSolvers) (thePolyline : Polyline) (g : Geom) : List ℚ :=
  sortq (setDedup (segmentOffsets cs thePolyline g))

mutual
/-- Embeds the polyline dispatch of meta.ts.  The fast-reject for a target that
is neither an array, a point, a box nor a ray dereferences the target's
boundingBox property, which raises a TypeError for values outside the
recognized kinds. -/
def polylineDisp (cs : CircleSolvers) (thePolyline : Polyline) :
    Geom → Except JsError (List ℚ)
  | .array gs =>
    match polylineDispList cs thePolyline gs with
    | .error e => .error e
    | .ok xs => .ok (sortq xs)
  | .point p =>
    if thePolyline.boundingBox.containsPt p false absoluteTolerance = false then .ok []
    else .ok (polylineMain cs thePolyline (.point p))
  | .bbox b =>
    if thePolyline.boundingBox.overlaps b = false then .ok []
    else .ok (polylineMain cs thePolyline (.bbox b))
  | .ray r => .ok (polylineMain cs thePolyline (.ray r))
  | g =>
    match geomBoundingBox g with
    | none => .error .typeError
    | some bb =>
      if thePolyline.boundingBox.overlaps bb = false then .ok []
      else .ok (polylineMain cs thePolyline g)
/-- The list-target loop of the polyline dispatch; an error at any element
propagates. -/
def polylineDispList (cs : CircleSolvers) (thePolyline : Polyline) :
    GeomList → Except JsError (List ℚ)
  | .nil => .ok []
  | .cons g gs =>
    match polylineDisp cs thePolyline g with
    | .error e => .error e
    | .ok a =>
      match polylineDispList cs thePolyline gs with
      | .error e => .error e
      | .ok b => .ok (a ++ b)
end


/-- A concrete circle-solver instance reporting no circle intersections. -/
def noCircle : CircleSolvers := ⟨fun _ _ => [], fun _ _ => []⟩

theorem sortq_sorted (xs : List ℚ) : List.Sorted (· ≤ ·) (sortq xs) :=
  List.sorted_insertionSort _ xs

theorem sortq_perm (xs : List ℚ) : (sortq xs).Perm xs :=
  List.perm_insertionSort _ xs

theorem mem_sortq {x : ℚ} {xs : List ℚ} : x ∈ sortq xs ↔ x ∈ xs :=
  (sortq_perm xs).mem_iff

theorem sortq_congr_perm {xs ys : List ℚ} (h : xs.Perm ys) : sortq xs = sortq ys :=
  List.eq_of_perm_of_sorted ((sortq_perm xs).trans (h.trans (sortq_perm ys).symm))
    (sortq_sorted xs) (sortq_sorted ys)

theorem setDedup_fold_mem {x : ℚ} :
    ∀ (xs acc : List ℚ),
      x ∈ xs.foldl (fun a y => if y ∈ a then a else a ++ [y]) acc → x ∈ acc ∨ x ∈ xs := by
  intro xs
  induction xs with
  | nil => intro acc h; exact Or.inl h
  | cons y ys ih =>
    intro acc h
    simp only [List.foldl_cons] at h
    rcases ih _ h with hacc | hys
    · by_cases hy : y ∈ acc
      · rw [if_pos hy] at hacc; exact Or.inl hacc
      · rw [if_neg hy] at hacc
        rcases List.mem_append.1 hacc with h1 | h2
        · exact Or.inl h1
        · simp at h2; subst h2; exact Or.inr (List.mem_cons_self _ _)
    · exact Or.inr (List.mem_cons_of_mem _ hys)

theorem mem_setDedup {x : ℚ} {xs : List ℚ} (h : x ∈ setDedup xs) : x ∈ xs := by
  rcases setDedup_fold_mem xs [] h with h0 | h1
  · simp at h0
  · exact h1

theorem flatMap_perm_congr {α : Type} (f g : α → List ℚ) :
    ∀ l : List α, (∀ x ∈ l, (f x).Perm (g x)) → (l.flatMap f).Perm (l.flatMap g) := by
  intro l
  induction l with
  | nil => intro _; simp
  | cons a l ih =>
    intro h
    simp only [List.flatMap_cons]
    exact (h a (List.mem_cons_self _ _)).append (ih fun x hx => h x (List.mem_cons_of_mem _ hx))

theorem clamp01_unit (t : ℚ) : 0 ≤ clamp01 t ∧ clamp01 t ≤ 1 := by
  unfold clamp01
  split
  · constructor <;> norm_num
  · split
    · constructor <;> norm_num
    · constructor <;> linarith [not_lt.1 (by assumption : ¬ t < 0), not_lt.1 (by assumption : ¬ 1 < t)]

theorem closestParameter_unit (l : Line) (p : Pt) :
    0 ≤ l.closestParameter p true ∧ l.closestParameter p true ≤ 1 := by
  unfold Line.closestParameter
  by_cases h : dot2 l.direction l.direction = 0
  · rw [if_pos h]; norm_num
  · rw [if_neg h]
    exact clamp01_unit _

theorem lineLine_fst_unit {a b : Line} {res : ℚ × ℚ} (h : lineLine a b = some res) :
    0 ≤ res.1 ∧ res.1 ≤ 1 := by
  simp only [lineLine] at h
  split at h
  · exact absurd h (by simp)
  · split at h
    · rcases Option.some.inj h with rfl
      rename_i hcond
      exact ⟨hcond.1, hcond.2.1⟩
    · exact absurd h (by simp)

theorem rayLine_snd_unit {r : Ray} {l : Line} {fw : Bool} {res : ℚ × ℚ}
    (h : rayLine r l fw = some res) : 0 ≤ res.2 ∧ res.2 ≤ 1 := by
  simp only [rayLine] at h
  split at h
  · exact absurd h (by simp)
  · split at h
    · rcases Option.some.inj h with rfl
      rename_i hcond
      exact ⟨hcond.1.1, hcond.1.2⟩
    · exact absurd h (by simp)

theorem linePolyline_unit {l : Line} {pl : Polyline} {x : ℚ}
    (h : x ∈ linePolyline l pl) : 0 ≤ x ∧ x ≤ 1 := by
  unfold linePolyline at h
  rcases List.mem_filterMap.1 h with ⟨edge, _, hmap⟩
  rcases Option.map_eq_some'.1 hmap with ⟨res, hres, hfst⟩
  subst hfst
  exact lineLine_fst_unit hres

theorem linePolyBranch_unit {l : Line} {pl : Polyline} {x : ℚ}
    (h : x ∈ linePolyBranch l pl) : 0 ≤ x ∧ x ≤ 1 := by
  unfold linePolyBranch at h
  rw [mem_sortq] at h
  split at h
  · exact linePolyline_unit h
  · simp at h

theorem linePolygonBranch_unit {l : Line} {pg : Polygon} {x : ℚ}
    (h : x ∈ linePolygonBranch l pg) : 0 ≤ x ∧ x ≤ 1 := by
  unfold linePolygonBranch at h
  rw [mem_sortq] at h
  split at h
  · rcases List.mem_append.1 h with hb | hh
    · exact linePolyline_unit hb
    · rcases List.mem_flatMap.1 hh with ⟨hole, _, hx⟩
      split at hx
      · exact linePolyline_unit hx
      · simp at hx
  · simp at h

/-- The assumption the engine places on the external circle solvers: their
parameter lists are ascending (spec: parameter arrays are always sorted). -/
def CircleSolvers.SortedOutputs (cs : CircleSolvers) : Prop :=
  (∀ l c, List.Sorted (· ≤ ·) (cs.lineCircle l c)) ∧
    (∀ r c, List.Sorted (· ≤ ·) (cs.rayCircle r c))

/-- The assumption that the line-circle solver reports parameters within the
finite segment range [0, 1]. -/
def CircleSolvers.UnitRange (cs : CircleSolvers) : Prop :=
  ∀ l c u, u ∈ cs.lineCircle l c → 0 ≤ u ∧ u ≤ 1

theorem noCircle_sortedOutputs : noCircle.SortedOutputs :=
  ⟨fun _ _ => List.sorted_nil, fun _ _ => List.sorted_nil⟩

theorem noCircle_unitRange : noCircle.UnitRange := by
  intro l c u hu
  simp [noCircle] at hu

theorem lineDisp_sorted (cs : CircleSolvers) (hcs : cs.SortedOutputs) (tl : Line) :
    ∀ g : Geom, List.Sorted (· ≤ ·) (lineDisp cs tl g) := by
  intro g
  cases g with
  | array gs => simp only [lineDisp]; exact sortq_sorted _
  | point p =>
    simp only [lineDisp]
    split
    · exact List.sorted_singleton _
    · exact List.sorted_nil
  | line l2 =>
    simp only [lineDisp]
    split
    · exact List.sorted_singleton _
    · exact List.sorted_nil
  | ray r =>
    simp only [lineDisp]
    split
    · exact List.sorted_singleton _
    · exact List.sorted_nil
  | bbox b => simp only [lineDisp]; exact sortq_sorted _
  | circle c => simp only [lineDisp]; exact hcs.1 tl c
  | rect rc => simp only [lineDisp]; exact sortq_sorted _
  | polyline pl => simp only [lineDisp]; exact sortq_sorted _
  | polygon pg => simp only [lineDisp]; exact sortq_sorted _
  | unknown => simp only [lineDisp]; exact List.sorted_nil

theorem rayDisp_sorted (cs : CircleSolvers) (hcs : cs.SortedOutputs) (tr : Ray) :
    ∀ g : Geom, List.Sorted (· ≤ ·) (rayDisp cs tr g) := by
  intro g
  cases g with
  | array gs => simp only [rayDisp]; exact sortq_sorted _
  | point p =>
    simp only [rayDisp]
    split
    · exact List.sorted_singleton _
    · exact List.sorted_nil
  | line l2 =>
    simp only [rayDisp]
    split
    · exact List.sorted_singleton _
    · exact List.sorted_nil
  | ray r2 =>
    simp only [rayDisp]
    split
    · exact List.sorted_singleton _
    · exact List.sorted_nil
  | bbox b => simp only [rayDisp]; exact sortq_sorted _
  | circle c => simp only [rayDisp]; exact hcs.2 tr c
  | rect rc => simp only [rayDisp]; exact sortq_sorted _
  | polyline pl => simp only [rayDisp]; exact sortq_sorted _
  | polygon pg => simp only [rayDisp]; exact sortq_sorted _
  | unknown => simp only [rayDisp]; exact List.sorted_nil

theorem polylineDisp_sorted (cs : CircleSolvers) (pl : Polyline) :
    ∀ (g : Geom) (res : List ℚ), polylineDisp cs pl g = .ok res →
      List.Sorted (· ≤ ·) res := by
  intro g res h
  cases g with
  | array gs =>
    simp only [polylineDisp] at h
    split at h
    · exact absurd h (by simp)
    · rcases Except.ok.inj h with rfl
      exact sortq_sorted _
  | point p =>
    simp only [polylineDisp] at h
    split at h
    · rcases Except.ok.inj h with rfl; exact List.sorted_nil
    · rcases Except.ok.inj h with rfl; exact sortq_sorted _
  | bbox b =>
    simp only [polylineDisp] at h
    split at h
    · rcases Except.ok.inj h with rfl; exact List.sorted_nil
    · rcases Except.ok.inj h with rfl; exact sortq_sorted _
  | ray r =>
    simp only [polylineDisp] at h
    rcases Except.ok.inj h with rfl; exact sortq_sorted _
  | line l2 =>
    simp only [polylineDisp, geomBoundingBox] at h
    split at h
    · rcases Except.ok.inj h with rfl; exact List.sorted_nil
    · rcases Except.ok.inj h with rfl; exact sortq_sorted _
  | circle c =>
    simp only [polylineDisp, geomBoundingBox] at h
    split at h
    · rcases Except.ok.inj h with rfl; exact List.sorted_nil
    · rcases Except.ok.inj h with rfl; exact sortq_sorted _
  | rect rc =>
    simp only [polylineDisp, geomBoundingBox] at h
    split at h
    · rcases Except.ok.inj h with rfl; exact List.sorted_nil
    · rcases Except.ok.inj h with rfl; exact sortq_sorted _
  | polyline pl2 =>
    simp only [polylineDisp, geomBoundingBox] at h
    split at h
    · rcases Except.ok.inj h with rfl; exact List.sorted_nil
    · rcases Except.ok.inj h with rfl; exact sortq_sorted _
  | polygon pg =>
    simp only [polylineDisp, geomBoundingBox] at h
    split at h
    · rcases Except.ok.inj h with rfl; exact List.sorted_nil
    · rcases Except.ok.inj h with rfl; exact sortq_sorted _
  | unknown =>
    simp only [polylineDisp, geomBoundingBox] at h
    exact absurd h (by simp)

theorem enum_fst_lt {α : Type} (l : List α) : ∀ pr ∈ l.enum, pr.1 < l.length := by
  intro pr hpr
  rw [List.enum_eq_zip_range] at hpr
  exact List.mem_range.1 (List.of_mem_zip hpr).1

mutual
theorem lineDisp_unit (cs : CircleSolvers) (hcs : cs.UnitRange) (tl : Line) :
    ∀ (g : Geom) (x : ℚ), x ∈ lineDisp cs tl g → 0 ≤ x ∧ x ≤ 1
  | .array gs, x, hx => by
    simp only [lineDisp] at hx
    exact lineDispList_unit cs hcs tl gs x (mem_sortq.1 hx)
  | .point p, x, hx => by
    simp only [lineDisp] at hx
    split at hx
    · rcases List.mem_singleton.1 hx with rfl
      exact closestParameter_unit tl p
    · simp at hx
  | .line l2, x, hx => by
    simp only [lineDisp] at hx
    split at hx
    · rcases List.mem_singleton.1 hx with rfl
      rename_i res hres
      exact lineLine_fst_unit hres
    · simp at hx
  | .ray r, x, hx => by
    simp only [lineDisp] at hx
    split at hx
    · rcases List.mem_singleton.1 hx with rfl
      rename_i res hres
      exact rayLine_snd_unit hres
    · simp at hx
  | .bbox b, x, hx => by
    simp only [lineDisp] at hx
    exact linePolyBranch_unit hx
  | .circle c, x, hx => by
    simp only [lineDisp] at hx
    exact hcs tl c x hx
  | .rect rc, x, hx => by
    simp only [lineDisp] at hx
    exact linePolyBranch_unit hx
  | .polyline pl, x, hx => by
    simp only [lineDisp] at hx
    exact linePolyBranch_unit hx
  | .polygon pg, x, hx => by
    simp only [lineDisp] at hx
    exact linePolygonBranch_unit hx
  | .unknown, x, hx => by
    simp only [lineDisp] at hx
    simp at hx
theorem lineDispList_unit (cs : CircleSolvers) (hcs : cs.UnitRange) (tl : Line) :
    ∀ (gs : GeomList) (x : ℚ), x ∈ lineDispList cs tl gs → 0 ≤ x ∧ x ≤ 1
  | .nil, x, hx => by
    simp only [lineDispList] at hx
    simp at hx
  | .cons g gs, x, hx => by
    simp only [lineDispList] at hx
    rcases List.mem_append.1 hx with h1 | h2
    · exact lineDisp_unit cs hcs tl g x h1
    · exact lineDispList_unit cs hcs tl gs x h2
end

theorem segmentOffsets_range (cs : CircleSolvers) (hcs : cs.UnitRange) (pl : Polyline)
    (g : Geom) {x : ℚ} (h : x ∈ segmentOffsets cs pl g) :
    0 ≤ x ∧ x ≤ (pl.segments.length : ℚ) := by
  unfold segmentOffsets at h
  rcases List.mem_flatMap.1 h with ⟨pr, hpr, hx⟩
  rcases List.mem_map.1 hx with ⟨u, hu, rfl⟩
  have hunit := lineDisp_unit cs hcs pr.2 g u hu
  have hlt : pr.1 < pl.segments.length := enum_fst_lt _ _ hpr
  have hge : (0 : ℚ) ≤ (pr.1 : ℚ) := Nat.cast_nonneg _
  have hle : (pr.1 : ℚ) + 1 ≤ (pl.segments.length : ℚ) := by
    exact_mod_cast Nat.succ_le_of_lt hlt
  constructor
  · linarith [hunit.1]
  · linarith [hunit.2]

theorem polylineMain_range (cs : CircleSolvers) (hcs : cs.UnitRange) (pl : Polyline)
    (g : Geom) {x : ℚ} (h : x ∈ polylineMain cs pl g) :
    0 ≤ x ∧ x ≤ (pl.segments.length : ℚ) := by
  unfold polylineMain at h
  exact segmentOffsets_range cs hcs pl g (mem_setDedup (mem_sortq.1 h))

mutual
theorem polylineDisp_range (cs : CircleSolvers) (hcs : cs.UnitRange) (pl : Polyline) :
    ∀ (g : Geom) (res : List ℚ), polylineDisp cs pl g = .ok res →
      ∀ x ∈ res, 0 ≤ x ∧ x ≤ (pl.segments.length : ℚ)
  | .array gs, res, h, x, hx => by
    simp only [polylineDisp] at h
    split at h
    · exact absurd h (by simp)
    · rcases Except.ok.inj h with rfl
      rename_i xs hlist
      exact polylineDispList_range cs hcs pl gs xs hlist x (mem_sortq.1 hx)
  | .point p, res, h, x, hx => by
    simp only [polylineDisp] at h
    split at h
    · rcases Except.ok.inj h with rfl; simp at hx
    · rcases Except.ok.inj h with rfl
      exact polylineMain_range cs hcs pl _ hx
  | .bbox b, res, h, x, hx => by
    simp only [polylineDisp] at h
    split at h
    · rcases Except.ok.inj h with rfl; simp at hx
    · rcases Except.ok.inj h with rfl
      exact polylineMain_range cs hcs pl _ hx
  | .ray r, res, h, x, hx => by
    simp only [polylineDisp] at h
    rcases Except.ok.inj h with rfl
    exact polylineMain_range cs hcs pl _ hx
  | .line l2, res, h, x, hx => by
    simp only [polylineDisp, geomBoundingBox] at h
    split at h
    · rcases Except.ok.inj h with rfl; simp at hx
    · rcases Except.ok.inj h with rfl
      exact polylineMain_range cs hcs pl _ hx
  | .circle c, res, h, x, hx => by
    simp only [polylineDisp, geomBoundingBox] at h
    split at h
    · rcases Except.ok.inj h with rfl; simp at hx
    · rcases Except.ok.inj h with rfl
      exact polylineMain_range cs hcs pl _ hx
  | .rect rc, res, h, x, hx => by
    simp only [polylineDisp, geomBoundingBox] at h
    split at h
    · rcases Except.ok.inj h with rfl; simp at hx
    · rcases Except.ok.inj h with rfl
      exact polylineMain_range cs hcs pl _ hx
  | .polyline pl2, res, h, x, hx => by
    simp only [polylineDisp, geomBoundingBox] at h
    split at h
    · rcases Except.ok.inj h with rfl; simp at hx
    · rcases Except.ok.inj h with rfl
      exact polylineMain_range cs hcs pl _ hx
  | .polygon pg, res, h, x, hx => by
    simp only [polylineDisp, geomBoundingBox] at h
    split at h
    · rcases Except.ok.inj h with rfl; simp at hx
    · rcases Except.ok.inj h with rfl
      exact polylineMain_range cs hcs pl _ hx
  | .unknown, res, h, x, hx => by
    simp only [polylineDisp, geomBoundingBox] at h
    exact absurd h (by simp)
theorem polylineDispList_range (cs : CircleSolvers) (hcs : cs.UnitRange) (pl : Polyline) :
    ∀ (gs : GeomList) (res : List ℚ), polylineDispList cs pl gs = .ok res →
      ∀ x ∈ res, 0 ≤ x ∧ x ≤ (pl.segments.length : ℚ)
  | .nil, res, h, x, hx => by
    simp only [polylineDispList] at h
    rcases Except.ok.inj h with rfl
    simp at hx
  | .cons g gs, res, h, x, hx => by
    simp only [polylineDispList] at h
    cases ha : polylineDisp cs pl g with
    | error e => rw [ha] at h; exact absurd h (by simp)
    | ok a =>
      rw [ha] at h
      cases hb : polylineDispList cs pl gs with
      | error e => rw [hb] at h; exact absurd h (by simp)
      | ok b =>
        rw [hb] at h
        rcases Except.ok.inj h with rfl
        rcases List.mem_append.1 hx with h1 | h2
        · exact polylineDisp_range cs hcs pl g a ha x h1
        · exact polylineDispList_range cs hcs pl gs b hb x h2
end

theorem pathSum_nil : pathSum [] = 0 := rfl

theorem pathSum_single (a : Pt) : pathSum [a] = 0 := rfl

theorem pathSum_cons_cons (a b : Pt) (l : List Pt) :
    pathSum (a :: b :: l) = cross2 a b + pathSum (b :: l) := rfl

theorem cross2_antisymm (a b : Pt) : cross2 b a = - cross2 a b := by
  unfold cross2; ring

theorem pathSum_snoc : ∀ (l : List Pt) (c : Pt),
    pathSum (l ++ [c]) =
      pathSum l + (match l.getLast? with | some z => cross2 z c | none => 0) := by
  intro l
  induction l with
  | nil => intro c; simp [pathSum]
  | cons a l ih =>
    intro c
    cases l with
    | nil => simp [pathSum]
    | cons b l2 =>
      have : ((a :: b :: l2) ++ [c]) = a :: ((b :: l2) ++ [c]) := by simp
      rw [this]
      rw [show (b :: l2) ++ [c] = b :: (l2 ++ [c]) by simp] at *
      rw [pathSum_cons_cons a b (l2 ++ [c])]
      rw [show b :: (l2 ++ [c]) = (b :: l2) ++ [c] by simp, ih c]
      rw [pathSum_cons_cons a b l2]
      rw [List.getLast?_cons_cons]
      ring

theorem pathSum_reverse : ∀ l : List Pt, pathSum l.reverse = - pathSum l := by
  intro l
  induction l with
  | nil => simp [pathSum]
  | cons a l ih =>
    rw [List.reverse_cons, pathSum_snoc, ih, List.getLast?_reverse]
    cases l with
    | nil => simp [pathSum]
    | cons b l2 =>
      rw [List.head?_cons, pathSum_cons_cons]
      dsimp only
      rw [cross2_antisymm a b]
      ring

theorem wrapTerm_reverse (l : List Pt) : wrapTerm l.reverse = - wrapTerm l := by
  unfold wrapTerm
  rw [List.head?_reverse, List.getLast?_reverse]
  cases l with
  | nil => simp
  | cons b l2 =>
    have h1 : (b :: l2).head? = some b := rfl
    have h2 : (b :: l2).getLast? = some ((b :: l2).getLast (by simp)) :=
      List.getLast?_eq_getLast _ _
    rw [h1, h2]
    dsimp only
    exact cross2_antisymm _ _

theorem cycSum_reverse (l : List Pt) : cycSum l.reverse = - cycSum l := by
  unfold cycSum
  rw [pathSum_reverse, wrapTerm_reverse]
  ring

theorem signedArea_reverse (pl : Polyline) : pl.reverse.signedArea = - pl.signedArea := by
  unfold Polyline.signedArea Polyline.reverse
  cases hc : pl.closed <;> simp [hc, cycSum_reverse, pathSum_reverse] <;> ring

theorem withOrientation_ccw_nonneg (pl : Polyline) :
    0 ≤ (pl.withOrientation CurveOrientation.counterclockwise).signedArea := by
  unfold Polyline.withOrientation Polyline.orientation
  by_cases hpos : 0 < pl.signedArea
  · rw [if_pos]
    · exact le_of_lt hpos
    · left; rw [if_pos hpos]
  · by_cases hneg : pl.signedArea < 0
    · rw [if_neg]
      · rw [signedArea_reverse]; linarith
      · rw [if_neg hpos, if_pos hneg]
        intro hcontra
        rcases hcontra with h1 | h1 <;> exact absurd h1 (by simp)
    · rw [if_pos]
      · linarith
      · right; rw [if_neg hpos, if_neg hneg]

theorem withOrientation_cw_nonpos (pl : Polyline) :
    (pl.withOrientation CurveOrientation.clockwise).signedArea ≤ 0 := by
  unfold Polyline.withOrientation Polyline.orientation
  by_cases hpos : 0 < pl.signedArea
  · rw [if_neg]
    · rw [signedArea_reverse]; linarith
    · rw [if_pos hpos]
      intro hcontra
      rcases hcontra with h1 | h1 <;> exact absurd h1 (by simp)
  · by_cases hneg : pl.signedArea < 0
    · rw [if_pos]
      · exact le_of_lt hneg
      · left; rw [if_neg hpos, if_pos hneg]
    · rw [if_pos]
      · linarith
      · right; rw [if_neg hpos, if_neg hneg]

theorem withOrientation_closed (pl : Polyline) (o : CurveOrientation) :
    (pl.withOrientation o).closed = pl.closed := by
  unfold Polyline.withOrientation
  split
  · rfl
  · rfl

theorem orientHoles_ok {hs : List Polyline} (h : ∀ x ∈ hs, x.isClosed = true) :
    orientHoles hs = .ok (hs.map (fun x => x.withOrientation CurveOrientation.clockwise)) := by
  induction hs with
  | nil => rfl
  | cons a l ih =>
    rw [orientHoles]
    rw [if_neg (by rw [h a (List.mem_cons_self _ _)]; simp)]
    rw [ih (fun x hx => h x (List.mem_cons_of_mem _ hx))]
    simp

theorem orientHoles_error {hs : List Polyline} (h : ∃ x ∈ hs, x.isClosed = false) :
    orientHoles hs = .error .invalidGeometry := by
  induction hs with
  | nil => simp at h
  | cons a l ih =>
    rw [orientHoles]
    by_cases ha : a.isClosed = false
    · rw [if_pos ha]
    · rw [if_neg ha]
      rcases h with ⟨x, hx, hxc⟩
      rcases List.mem_cons.1 hx with rfl | hxl
      · exact absurd hxc ha
      · rw [ih ⟨x, hxl, hxc⟩]
/-- The rehydration described by the specification: first ring to boundary,
remaining rings to holes, with the construction-time orientation
canonicalization re-applied to every ring. -/
def rehydratePiece : PcPolygon → Polygon
  | [] => ⟨⟨[], true⟩, []⟩
  | b :: rest =>
    ⟨(Polyline.fromCoords b).withOrientation CurveOrientation.counterclockwise,
      rest.map (fun r => (Polyline.fromCoords r).withOrientation CurveOrientation.clockwise)⟩

/-- The output collection described by the specification: ring-sets with zero
rings silently dropped, every other ring-set rehydrated. -/
def rehydrateAll (m : MultiPoly) : List Polygon :=
  (m.filter (fun piece => !piece.isEmpty)).map rehydratePiece

theorem fromCoords_isClosed (r : GeoRing) : (Polyline.fromCoords r).isClosed = true := rfl

theorem fromCoords_ok (b : GeoRing) (rest : List GeoRing) :
    Polygon.fromCoords (b :: rest) = .ok (rehydratePiece (b :: rest)) := by
  cases rest with
  | nil =>
    have hstep : Polygon.fromCoords [b] =
        Polygon.create (Polyline.fromCoords b) none := rfl
    rw [hstep, Polygon.create]
    rw [if_neg (by rw [fromCoords_isClosed]; simp)]
    rfl
  | cons r rs =>
    have hstep : Polygon.fromCoords (b :: r :: rs) =
        Polygon.create (Polyline.fromCoords b) (some ((r :: rs).map Polyline.fromCoords)) := rfl
    rw [hstep, Polygon.create]
    rw [if_neg (by rw [fromCoords_isClosed]; simp)]
    rw [orientHoles_ok (by intro x hx; rcases List.mem_map.1 hx with ⟨c, _, rfl⟩; rfl)]
    rw [rehydratePiece]
    rw [List.map_map]
    rfl

theorem fromGeoJSON_eq (m : MultiPoly) : fromGeoJSON m = .ok (rehydrateAll m) := by
  induction m with
  | nil => rfl
  | cons piece rest ih =>
    rw [fromGeoJSON]
    by_cases hp : piece.isEmpty
    · rw [if_pos hp, ih]
      unfold rehydrateAll
      rw [List.filter_cons_of_neg (by simp [hp])]
    · rw [if_neg hp]
      cases piece with
      | nil => simp at hp
      | cons b brest =>
        rw [fromCoords_ok, ih]
        unfold rehydrateAll
        rw [List.filter_cons_of_pos (by simp)]
        rfl

/-- The Polygon rule as the specification words it: rule 6 applied
independently to the boundary and to every hole, each loop gated by its own
bounding box, concatenated and sorted ascending. -/
def lineSpecPolygon (theLine : Line) (pg : Polygon) : List ℚ :=
  sortq (linePolyBranch theLine pg.boundary ++ pg.holes.flatMap (linePolyBranch theLine))

/-- The ray version of the specification wording of the Polygon rule. -/
def raySpecPolygon (theRay : Ray) (pg : Polygon) : List ℚ :=
  sortq (rayPolyBranch theRay pg.boundary ++ pg.holes.flatMap (rayPolyBranch theRay))

theorem linePolygonBranch_gate (tl : Line) (pg : Polygon) :
    linePolygonBranch tl pg =
      if lineBoxIntersects tl pg.boundary.boundingBox then lineSpecPolygon tl pg else [] := by
  unfold linePolygonBranch lineSpecPolygon
  by_cases hg : lineBoxIntersects tl pg.boundary.boundingBox
  · rw [if_pos hg, if_pos hg]
    apply sortq_congr_perm
    apply List.Perm.append
    · have hb : linePolyBranch tl pg.boundary = sortq (linePolyline tl pg.boundary) := by
        unfold linePolyBranch; rw [if_pos hg]
      rw [hb]
      exact (sortq_perm _).symm
    · apply flatMap_perm_congr
      intro h _
      unfold linePolyBranch
      exact (sortq_perm _).symm
  · rw [if_neg hg, if_neg hg]
    rfl

theorem rayPolygonBranch_gate (tr : Ray) (pg : Polygon) :
    rayPolygonBranch tr pg =
      if rayBoxIntersects tr pg.boundary.boundingBox then raySpecPolygon tr pg else [] := by
  unfold rayPolygonBranch raySpecPolygon
  by_cases hg : rayBoxIntersects tr pg.boundary.boundingBox
  · rw [if_pos hg, if_pos hg]
    apply sortq_congr_perm
    apply List.Perm.append
    · have hb : rayPolyBranch tr pg.boundary = sortq (rayPolyline tr pg.boundary) := by
        unfold rayPolyBranch; rw [if_pos hg]
      rw [hb]
      exact (sortq_perm _).symm
    · apply flatMap_perm_congr
      intro h _
      unfold rayPolyBranch
      exact (sortq_perm _).symm
  · rw [if_neg hg, if_neg hg]
    rfl

/-- The textbook ascending merge of two parameter lists. -/
def mergeAsc : List ℚ → List ℚ → List ℚ
  | [], ys => ys
  | x :: xs, [] => x :: xs
  | x :: xs, y :: ys =>
    if x ≤ y then x :: mergeAsc xs (y :: ys) else y :: mergeAsc (x :: xs) ys
termination_by xs ys => xs.length + ys.length

theorem mergeAsc_perm : ∀ xs ys : List ℚ, (mergeAsc xs ys).Perm (xs ++ ys)
  | [], ys => by simp [mergeAsc]
  | x :: xs, [] => by simp [mergeAsc]
  | x :: xs, y :: ys => by
    by_cases h : x ≤ y
    · simp only [mergeAsc, if_pos h]
      simpa using (mergeAsc_perm xs (y :: ys)).cons x
    · simp only [mergeAsc, if_neg h]
      refine ((mergeAsc_perm (x :: xs) ys).cons y).trans ?_
      exact (List.perm_middle).symm
termination_by xs ys => xs.length + ys.length

theorem mergeAsc_sorted : ∀ xs ys : List ℚ, List.Sorted (· ≤ ·) xs →
    List.Sorted (· ≤ ·) ys → List.Sorted (· ≤ ·) (mergeAsc xs ys)
  | [], ys, _, hy => by simpa [mergeAsc] using hy
  | x :: xs, [], hx, _ => by simpa [mergeAsc] using hx
  | x :: xs, y :: ys, hx, hy => by
    rcases List.sorted_cons.1 hx with ⟨hxall, hxs⟩
    rcases List.sorted_cons.1 hy with ⟨hyall, hys⟩
    by_cases h : x ≤ y
    · simp only [mergeAsc, if_pos h]
      rw [List.sorted_cons]
      constructor
      · intro b hb
        have hb2 := (mergeAsc_perm xs (y :: ys)).mem_iff.1 hb
        rcases List.mem_append.1 hb2 with h1 | h2
        · exact hxall b h1
        · rcases List.mem_cons.1 h2 with rfl | h3
          · exact h
          · exact le_trans h (hyall b h3)
      · exact mergeAsc_sorted xs (y :: ys) hxs hy
    · have hyx : y ≤ x := le_of_not_le h
      simp only [mergeAsc, if_neg h]
      rw [List.sorted_cons]
      constructor
      · intro b hb
        have hb2 := (mergeAsc_perm (x :: xs) ys).mem_iff.1 hb
        rcases List.mem_append.1 hb2 with h1 | h2
        · rcases List.mem_cons.1 h1 with rfl | h3
          · exact hyx
          · exact le_trans hyx (hxall b h3)
        · exact hyall b h2
      · exact mergeAsc_sorted (x :: xs) ys hx hys
termination_by xs ys => xs.length + ys.length

/-- The predicate on which the hole scan stops: the hole reports inside or
coincident. -/
def holeHit (plc : Polyline → Pt → ℚ → PointContainment) (pt : Pt) (tol : ℚ)
    (h : Polyline) : Bool :=
  decide (plc h pt tol = PointContainment.inside) ||
    decide (plc h pt tol = PointContainment.coincident)

theorem holeScan_find (plc : Polyline → Pt → ℚ → PointContainment) (pt : Pt) (tol : ℚ) :
    ∀ hs : List Polyline,
      (hs.find? (holeHit plc pt tol) = none → holeScan plc pt tol hs = .inside) ∧
      (∀ h0, hs.find? (holeHit plc pt tol) = some h0 →
        holeScan plc pt tol hs =
          (if plc h0 pt tol = PointContainment.inside then PointContainment.outside
            else PointContainment.coincident)) := by
  intro hs
  induction hs with
  | nil =>
    refine ⟨fun _ => rfl, fun h0 hfind => ?_⟩
    simp at hfind
  | cons a l ih =>
    cases hpc : plc a pt tol with
    | inside =>
      have hpa : holeHit plc pt tol a = true := by unfold holeHit; rw [hpc]; simp
      constructor
      · intro hnone
        rw [List.find?_cons_of_pos _ hpa] at hnone
        exact absurd hnone (by simp)
      · intro h0 hfind
        rw [List.find?_cons_of_pos _ hpa] at hfind
        rcases Option.some.inj hfind with rfl
        have hres : holeScan plc pt tol (a :: l) = PointContainment.outside := by
          rw [holeScan, hpc]
        rw [hres, hpc]
        simp
    | coincident =>
      have hpa : holeHit plc pt tol a = true := by unfold holeHit; rw [hpc]; simp
      constructor
      · intro hnone
        rw [List.find?_cons_of_pos _ hpa] at hnone
        exact absurd hnone (by simp)
      · intro h0 hfind
        rw [List.find?_cons_of_pos _ hpa] at hfind
        rcases Option.some.inj hfind with rfl
        have hres : holeScan plc pt tol (a :: l) = PointContainment.coincident := by
          rw [holeScan, hpc]
        rw [hres, hpc]
        simp
    | outside =>
      have hpa : holeHit plc pt tol a = false := by unfold holeHit; rw [hpc]; simp
      have hstep : holeScan plc pt tol (a :: l) = holeScan plc pt tol l := by
        rw [holeScan, hpc]
      constructor
      · intro hnone
        rw [List.find?_cons_of_neg _ (by simp [hpa])] at hnone
        rw [hstep]
        exact ih.1 hnone
      · intro h0 hfind
        rw [List.find?_cons_of_neg _ (by simp [hpa])] at hfind
        rw [hstep]
        exact ih.2 h0 hfind
    | unset =>
      have hpa : holeHit plc pt tol a = false := by unfold holeHit; rw [hpc]; simp
      have hstep : holeScan plc pt tol (a :: l) = holeScan plc pt tol l := by
        rw [holeScan, hpc]
      constructor
      · intro hnone
        rw [List.find?_cons_of_neg _ (by simp [hpa])] at hnone
        rw [hstep]
        exact ih.1 hnone
      · intro h0 hfind
        rw [List.find?_cons_of_neg _ (by simp [hpa])] at hfind
        rw [hstep]
        exact ih.2 h0 hfind

/-- A closed triangular query polyline with three segments. -/
def triQuery : Polyline := ⟨[⟨0, 0⟩, ⟨2, 0⟩, ⟨1, 2⟩], true⟩

/-- A target segment along the diagonal through the vertex (0, 0) of triQuery. -/
def diagTarget : Line := ⟨⟨-1, -1⟩, ⟨1, 1⟩⟩

/-- A closed square boundary far away from the origin. -/
def gateBoundary : Polyline := ⟨[⟨10, 10⟩, ⟨11, 10⟩, ⟨11, 11⟩, ⟨10, 11⟩], true⟩

/-- A closed unit-square hole near the origin (counter-clockwise as input). -/
def gateHoleInput : Polyline := ⟨[⟨0, 0⟩, ⟨1, 0⟩, ⟨1, 1⟩, ⟨0, 1⟩], true⟩

/-- The hole after construction forces it clockwise. -/
def gateHoleOriented : Polyline := ⟨[⟨0, 1⟩, ⟨1, 1⟩, ⟨1, 0⟩, ⟨0, 0⟩], true⟩

/-- A horizontal query segment crossing the hole but far from the boundary box. -/
def gateLine : Line := ⟨⟨-1, 1/2⟩, ⟨2, 1/2⟩⟩

/-- The polygon produced by constructing gateBoundary with the hole. -/
def gatePolygon : Polygon := ⟨gateBoundary, [gateHoleOriented]⟩

def demoRay : Ray := ⟨⟨0, 0⟩, ⟨1, 0⟩⟩

instance {ε α : Type} [DecidableEq ε] [DecidableEq α] : DecidableEq (Except ε α) := fun a b =>
  match a, b with
  | .ok x, .ok y =>
    if h : x = y then isTrue (by rw [h])
    else isFalse (by intro hc; injection hc; contradiction)
  | .error e, .error f =>
    if h : e = f then isTrue (by rw [h])
    else isFalse (by intro hc; injection hc; contradiction)
  | .ok _, .error _ => isFalse (by intro hc; injection hc)
  | .error _, .ok _ => isFalse (by intro hc; injection hc)

section
attribute [local semireducible] Rat.add Rat.mul Rat.sub Rat.inv

/-- Concrete evaluation of the polyline dispatch at the triangle query. -/
theorem triDisp_eval : polylineDisp noCircle triQuery (.line diagTarget) = .ok [0, 3] := by
  decide

/-- C1 counterexample: for the constructed polygon gatePolygon, whose hole lies
outside the boundary bounding box, the dispatch returns the empty list although
the independent per-loop rule of the claim yields the hole intersections
[1/3, 2/3]; a hole intersection is therefore not reported when the query
misses the boundary box. -/
theorem claim1_counterexample :
    Polygon.create gateBoundary (some [gateHoleInput]) = .ok gatePolygon ∧
    lineDisp noCircle gateLine (.polygon gatePolygon) = [] ∧
    lineSpecPolygon gateLine gatePolygon = [1/3, 2/3] := by
  refine ⟨by decide, by decide, by decide⟩

/-- C2 counterexample: the closed triangle triQuery has 3 segments, yet the
polyline dispatch against a segment through the closing vertex returns the
parameter list [0, 3]; the parameter 3 violates p < n. -/
theorem claim2_counterexample :
    triQuery.closed = true ∧
    triQuery.segments.length = 3 ∧
    polylineDisp noCircle triQuery (.line diagTarget) = .ok [0, 3] ∧
    ¬ ((3 : ℚ) < (triQuery.segments.length : ℚ)) := by
  refine ⟨rfl, by decide, triDisp_eval, by decide⟩

/-- C3 counterexample: for a Polyline query and a target value outside the
recognized geometry kinds, the dispatch raises a TypeError instead of
returning the empty list. -/
theorem claim3_counterexample :
    polylineDisp noCircle triQuery Geom.unknown = .error JsError.typeError := by
  decide

end

/-- C1 (amended): for Line and Ray queries against a Polygon, the hole loops
are tested only when the query box-test against the boundary bounding box
succeeds; under that gate the result equals the independent per-loop rule of
the claim, and otherwise the result is empty even when holes intersect. -/
theorem claim1_amended_gate (cs : CircleSolvers) (tl : Line) (tr : Ray) (pg : Polygon) :
    (lineDisp cs tl (.polygon pg) =
      if lineBoxIntersects tl pg.boundary.boundingBox then lineSpecPolygon tl pg else []) ∧
    (rayDisp cs tr (.polygon pg) =
      if rayBoxIntersects tr pg.boundary.boundingBox then raySpecPolygon tr pg else []) := by
  constructor
  · simp only [lineDisp]
    exact linePolygonBranch_gate tl pg
  · simp only [rayDisp]
    exact rayPolygonBranch_gate tr pg

/-- C2 (amended): for a closed Polyline query with n segments, every parameter
returned by the polyline dispatch satisfies 0 ≤ p ≤ n — the upper bound is
attained at the closing vertex, so p < n does not hold in general. -/
theorem claim2_amended_range (cs : CircleSolvers) (hcs : cs.UnitRange) (pl : Polyline)
    (_hcl : pl.closed = true) (g : Geom) (res : List ℚ)
    (hres : polylineDisp cs pl g = .ok res) :
    ∀ p ∈ res, 0 ≤ p ∧ p ≤ (pl.segments.length : ℚ) :=
  polylineDisp_range cs hcs pl g res hres

/-- C2 witness: the amended bound applied at the triangle counterexample. -/
theorem claim2_witness :
    noCircle.UnitRange ∧ triQuery.closed = true ∧
      ∀ p ∈ [(0 : ℚ), 3], 0 ≤ p ∧ p ≤ (triQuery.segments.length : ℚ) :=
  ⟨noCircle_unitRange, rfl,
    claim2_amended_range noCircle noCircle_unitRange triQuery rfl (.line diagTarget) [0, 3]
      triDisp_eval⟩

/-- C3 (amended): Line and Ray dispatch return the empty list on a target of
unrecognized kind; the Polyline dispatch instead dereferences the absent
boundingBox property of such a target and raises a TypeError. -/
theorem claim3_amended (cs : CircleSolvers) (tl : Line) (tr : Ray) (pl : Polyline) :
    lineDisp cs tl .unknown = [] ∧ rayDisp cs tr .unknown = [] ∧
      polylineDisp cs pl .unknown = .error .typeError := by
  refine ⟨?_, ?_, ?_⟩
  · simp only [lineDisp]
  · simp only [rayDisp]
  · simp only [polylineDisp, geomBoundingBox]

/-- C4: Polygon.contains returns the boundary result whenever it is not
inside; otherwise the hole scan returns outside at the first hole containing
the point, coincident at the first hole whose edge it touches, with the first
inside-or-coincident hole short-circuiting the scan, and inside only when no
hole reports either. -/
theorem claim4_contains_scan (plc : Polyline → Pt → ℚ → PointContainment) (pg : Polygon)
    (pt : Pt) (tol : ℚ) :
    (plc pg.boundary pt tol ≠ PointContainment.inside →
      Polygon.containsPt plc pg pt tol = plc pg.boundary pt tol) ∧
    (plc pg.boundary pt tol = PointContainment.inside →
      (pg.holes.find? (holeHit plc pt tol) = none →
        Polygon.containsPt plc pg pt tol = PointContainment.inside) ∧
      (∀ h0, pg.holes.find? (holeHit plc pt tol) = some h0 →
        Polygon.containsPt plc pg pt tol =
          (if plc h0 pt tol = PointContainment.inside then PointContainment.outside
            else PointContainment.coincident))) := by
  constructor
  · intro hni
    simp only [Polygon.containsPt]
    rw [if_pos hni]
  · intro hin
    simp only [Polygon.containsPt]
    rw [if_neg (by rw [hin]; simp)]
    exact holeScan_find plc pt tol pg.holes

/-- The trivial containment primitive reporting inside everywhere. -/
def plcInside : Polyline → Pt → ℚ → PointContainment := fun _ _ _ => PointContainment.inside

/-- C4 witness: with an everywhere-inside primitive, the scan stops at the
first hole and classifies the point outside. -/
theorem claim4_witness :
    plcInside gatePolygon.boundary ⟨0, 0⟩ 0 = PointContainment.inside ∧
    gatePolygon.holes.find? (holeHit plcInside ⟨0, 0⟩ 0) = some gateHoleOriented ∧
    Polygon.containsPt plcInside gatePolygon ⟨0, 0⟩ 0 = PointContainment.outside := by
  refine ⟨rfl, by decide, ?_⟩
  have h := ((claim4_contains_scan plcInside gatePolygon ⟨0, 0⟩ 0).2 rfl).2
      gateHoleOriented (by decide)
  rw [h]
  rfl

/-- C5: every polygon produced by union, intersection or difference comes from
rehydrating the non-empty ring-sets of the clipping output, first ring as
boundary and the rest as holes, with the orientation canonicalization re-run
(boundary winding area nonnegative, hole winding area nonpositive) regardless
of the emitted winding; zero-ring pieces are silently dropped. -/
theorem claim5_rehydrate (clipU clipI clipD : PcPolygon → ClipInput → MultiPoly)
    (pg : Polygon) (op : BoolOperand) :
    (∀ m, toMulti op = .ok m →
      Polygon.unionE clipU pg op = .ok (rehydrateAll (clipU pg.asGeoJSON m)) ∧
      Polygon.intersectionE clipI pg op = .ok (rehydrateAll (clipI pg.asGeoJSON m)) ∧
      Polygon.differenceE clipD pg op = .ok (rehydrateAll (clipD pg.asGeoJSON m))) ∧
    (∀ m : MultiPoly,
      rehydrateAll m = (m.filter (fun piece => !piece.isEmpty)).map rehydratePiece) ∧
    (∀ (m : MultiPoly) (q : Polygon), q ∈ rehydrateAll m →
      0 ≤ q.boundary.signedArea ∧ ∀ h ∈ q.holes, h.signedArea ≤ 0) := by
  refine ⟨?_, fun _ => rfl, ?_⟩
  · intro m hm
    refine ⟨?_, ?_, ?_⟩
    · rw [Polygon.unionE, hm]
      exact fromGeoJSON_eq _
    · rw [Polygon.intersectionE, hm]
      exact fromGeoJSON_eq _
    · rw [Polygon.differenceE, hm]
      exact fromGeoJSON_eq _
  · intro m q hq
    unfold rehydrateAll at hq
    rcases List.mem_map.1 hq with ⟨piece, _, rfl⟩
    cases piece with
    | nil =>
      constructor
      · simp [rehydratePiece, Polyline.signedArea, cycSum, pathSum, wrapTerm]
      · intro h hh
        simp [rehydratePiece] at hh
    | cons b rest =>
      constructor
      · exact withOrientation_ccw_nonneg _
      · intro h hh
        simp only [rehydratePiece] at hh
        rcases List.mem_map.1 hh with ⟨r, _, rfl⟩
        exact withOrientation_cw_nonpos _

/-- A concrete clipping output: one empty piece and one two-ring piece, both
rings wound clockwise. -/
def demoRing : GeoRing := [⟨0, 0⟩, ⟨0, 1⟩, ⟨1, 1⟩, ⟨1, 0⟩]

def demoMulti : MultiPoly := [[], [demoRing, demoRing]]

/-- C5 witness: the characterization applied to a concrete clip primitive. -/
theorem claim5_witness :
    toMulti (BoolOperand.pg gatePolygon) = .ok (Sum.inl gatePolygon.asGeoJSON) ∧
    Polygon.unionE (fun _ _ => demoMulti) gatePolygon (BoolOperand.pg gatePolygon) =
      .ok (rehydrateAll demoMulti) ∧
    (rehydratePiece [demoRing, demoRing] ∈ rehydrateAll demoMulti) ∧
    0 ≤ (rehydratePiece [demoRing, demoRing]).boundary.signedArea ∧
    (∀ h ∈ (rehydratePiece [demoRing, demoRing]).holes, h.signedArea ≤ 0) := by
  have h := claim5_rehydrate (fun _ _ => demoMulti) (fun _ _ => demoMulti)
    (fun _ _ => demoMulti) gatePolygon (BoolOperand.pg gatePolygon)
  have hmem : rehydratePiece [demoRing, demoRing] ∈ rehydrateAll demoMulti := by
    unfold rehydrateAll demoMulti
    simp
  have hsigns := h.2.2 demoMulti (rehydratePiece [demoRing, demoRing]) hmem
  exact ⟨rfl, (h.1 (Sum.inl gatePolygon.asGeoJSON) rfl).1, hmem, hsigns.1, hsigns.2⟩

/-- C6: a two-element list target produces exactly the ascending merge of the
two single-target results, duplicates preserved. -/
theorem claim6_list_merge (cs : CircleSolvers) (hcs : cs.SortedOutputs) (tl : Line)
    (g1 g2 : Geom) :
    lineDisp cs tl (.array (.cons g1 (.cons g2 .nil))) =
      mergeAsc (lineDisp cs tl g1) (lineDisp cs tl g2) := by
  have h1 := lineDisp_sorted cs hcs tl g1
  have h2 := lineDisp_sorted cs hcs tl g2
  have hl : lineDisp cs tl (.array (.cons g1 (.cons g2 .nil))) =
      sortq (lineDisp cs tl g1 ++ (lineDisp cs tl g2 ++ [])) := by
    simp only [lineDisp, lineDispList]
  rw [hl, List.append_nil]
  exact List.eq_of_perm_of_sorted
    ((sortq_perm _).trans (mergeAsc_perm _ _).symm)
    (sortq_sorted _) (mergeAsc_sorted _ _ h1 h2)

/-- C6 witness: the merge identity at a concrete line and target pair. -/
theorem claim6_witness :
    noCircle.SortedOutputs ∧
      lineDisp noCircle gateLine
          (.array (.cons (Geom.polygon gatePolygon) (.cons (Geom.line diagTarget) .nil))) =
        mergeAsc (lineDisp noCircle gateLine (Geom.polygon gatePolygon))
          (lineDisp noCircle gateLine (Geom.line diagTarget)) :=
  ⟨noCircle_sortedOutputs,
    claim6_list_merge noCircle noCircle_sortedOutputs gateLine _ _⟩

/-- C7: every parameter array returned by the line, ray or polyline dispatch is
sorted ascending, given that the external circle solvers deliver their
(unfiltered, passed-through) parameter lists ascending. -/
theorem claim7_sorted (cs : CircleSolvers) (hcs : cs.SortedOutputs) (tl : Line) (tr : Ray)
    (pl : Polyline) (g : Geom) :
    List.Sorted (· ≤ ·) (lineDisp cs tl g) ∧ List.Sorted (· ≤ ·) (rayDisp cs tr g) ∧
      ∀ res, polylineDisp cs pl g = .ok res → List.Sorted (· ≤ ·) res :=
  ⟨lineDisp_sorted cs hcs tl g, rayDisp_sorted cs hcs tr g,
    fun res h => polylineDisp_sorted cs pl g res h⟩

/-- C7 witness: sortedness at a concrete query and target. -/
theorem claim7_witness :
    noCircle.SortedOutputs ∧
      (List.Sorted (· ≤ ·) (lineDisp noCircle gateLine (Geom.polygon gatePolygon)) ∧
        List.Sorted (· ≤ ·) (rayDisp noCircle demoRay (Geom.polygon gatePolygon)) ∧
        ∀ res, polylineDisp noCircle triQuery (Geom.polygon gatePolygon) = .ok res →
          List.Sorted (· ≤ ·) res) :=
  ⟨noCircle_sortedOutputs,
    claim7_sorted noCircle noCircle_sortedOutputs gateLine demoRay triQuery _⟩

/-- C8: the Point target is an exact-hit test: the dispatch returns the
singleton of the closest parameter exactly when the point at that parameter
equals the target point under exact equality, and the empty list otherwise. -/
theorem claim8_point_exact (cs : CircleSolvers) (tl : Line) (tr : Ray) (p : Pt) :
    (∀ t, lineDisp cs tl (.point p) = [t] ↔
      (t = tl.closestParameter p true ∧ tl.pointAt t true = p)) ∧
    (lineDisp cs tl (.point p) = [] ↔
      tl.pointAt (tl.closestParameter p true) true ≠ p) ∧
    (∀ t, rayDisp cs tr (.point p) = [t] ↔
      (t = tr.closestParameter p ∧ tr.pointAt t = p)) ∧
    (rayDisp cs tr (.point p) = [] ↔ tr.pointAt (tr.closestParameter p) ≠ p) := by
  refine ⟨?_, ?_, ?_, ?_⟩
  · intro t
    simp only [lineDisp]
    by_cases hc : tl.pointAt (tl.closestParameter p true) true = p
    · rw [if_pos hc]
      constructor
      · intro h
        injection h with h1 _
        subst h1
        exact ⟨rfl, hc⟩
      · rintro ⟨rfl, _⟩
        rfl
    · rw [if_neg hc]
      constructor
      · intro h
        exact absurd h (by simp)
      · rintro ⟨rfl, hpt⟩
        exact absurd hpt hc
  · simp only [lineDisp]
    by_cases hc : tl.pointAt (tl.closestParameter p true) true = p
    · rw [if_pos hc]
      constructor
      · intro h
        exact absurd h (by simp)
      · intro h
        exact absurd hc h
    · rw [if_neg hc]
      exact ⟨fun _ => hc, fun _ => rfl⟩
  · intro t
    simp only [rayDisp]
    by_cases hc : tr.pointAt (tr.closestParameter p) = p
    · rw [if_pos hc]
      constructor
      · intro h
        injection h with h1 _
        subst h1
        exact ⟨rfl, hc⟩
      · rintro ⟨rfl, _⟩
        rfl
    · rw [if_neg hc]
      constructor
      · intro h
        exact absurd h (by simp)
      · rintro ⟨rfl, hpt⟩
        exact absurd hpt hc
  · simp only [rayDisp]
    by_cases hc : tr.pointAt (tr.closestParameter p) = p
    · rw [if_pos hc]
      constructor
      · intro h
        exact absurd h (by simp)
      · intro h
        exact absurd hc h
    · rw [if_neg hc]
      exact ⟨fun _ => hc, fun _ => rfl⟩

/-- C9: construction rejects a non-closed boundary or hole with an
invalid-geometry error, fromCoords of an empty ring list raises a RangeError,
and construction succeeds for every closed boundary with closed holes with no
further validation, forcing the canonical windings. -/
theorem claim9_construction :
    (∀ (b : Polyline) (hs : Option (List Polyline)), b.isClosed = false →
      Polygon.create b hs = .error .invalidGeometry) ∧
    (∀ (b : Polyline) (hs : List Polyline), b.isClosed = true →
      (∃ x ∈ hs, x.isClosed = false) →
      Polygon.create b (some hs) = .error .invalidGeometry) ∧
    Polygon.fromCoords [] = .error .rangeError ∧
    (∀ b : Polyline, b.isClosed = true →
      Polygon.create b none = .ok ⟨b.withOrientation CurveOrientation.counterclockwise, []⟩) ∧
    (∀ (b : Polyline) (hs : List Polyline), b.isClosed = true →
      (∀ x ∈ hs, x.isClosed = true) →
      Polygon.create b (some hs) =
        .ok ⟨b.withOrientation CurveOrientation.counterclockwise,
          hs.map (fun x => x.withOrientation CurveOrientation.clockwise)⟩) := by
  refine ⟨?_, ?_, rfl, ?_, ?_⟩
  · intro b hs hb
    cases hs with
    | none => rw [Polygon.create, if_pos hb]
    | some l => rw [Polygon.create, if_pos hb]
  · intro b hs hb hex
    rw [Polygon.create, if_neg (by rw [hb]; simp)]
    rw [orientHoles_error hex]
  · intro b hb
    rw [Polygon.create, if_neg (by rw [hb]; simp)]
  · intro b hs hb hall
    rw [Polygon.create, if_neg (by rw [hb]; simp)]
    rw [orientHoles_ok hall]

/-- A two-point open polyline. -/
def openPl : Polyline := ⟨[⟨0, 0⟩, ⟨1, 0⟩], false⟩

/-- C9 witness: the construction contract at concrete closed and open
polylines. -/
theorem claim9_witness :
    openPl.isClosed = false ∧
    Polygon.create openPl none = .error .invalidGeometry ∧
    Polygon.create gateBoundary (some [openPl]) = .error .invalidGeometry ∧
    Polygon.create gateBoundary (some [gateHoleInput]) =
      .ok ⟨gateBoundary.withOrientation CurveOrientation.counterclockwise,
        [gateHoleInput.withOrientation CurveOrientation.clockwise]⟩ := by
  refine ⟨rfl, claim9_construction.1 openPl none rfl, ?_, ?_⟩
  · exact claim9_construction.2.1 gateBoundary [openPl] rfl
      ⟨openPl, List.mem_singleton.2 rfl, rfl⟩
  · exact claim9_construction.2.2.2.2 gateBoundary [gateHoleInput] rfl
      (by intro x hx; rcases List.mem_singleton.1 hx with rfl; rfl)

/-- C10: an empty operand list matches neither first-element type guard, so
toMulti and in turn union, intersection and difference signal the conversion
error instead of treating the list as empty geometry. -/
theorem claim10_empty_list_boolean (clipU clipI clipD : PcPolygon → ClipInput → MultiPoly)
    (pg : Polygon) :
    isPolylineArray (.arr []) = false ∧ isPolygonArray (.arr []) = false ∧
    toMulti (.arr []) = .error .convertError ∧
    Polygon.unionE clipU pg (.arr []) = .error .convertError ∧
    Polygon.intersectionE clipI pg (.arr []) = .error .convertError ∧
    Polygon.differenceE clipD pg (.arr []) = .error .convertError := by
  exact ⟨rfl, rfl, rfl, rfl, rfl, rfl⟩

end Shapetypes
